import Mathlib

/-!
Shallow embedding of the HR-dataset Q&A application (`src/app.py`).

The application is a single linear script: read the API key from the
environment, load a CSV file with `pandas.read_csv` (memoized; caching is
irrelevant to a single run and is not modelled), serialize the frame back to
CSV text with `DataFrame.to_csv(index=False)`, build a fixed two-message
chat prompt, POST it once to the Mistral chat-completions endpoint, and
render the answer or the error.

The pure parts (CSV serialization, CSV parsing with pandas-style per-column
type inference, prompt/payload construction, response dispatch) are embedded
as executable functions.  The effectful parts (Streamlit display calls, the
single HTTP POST, an uncaught Python exception) are embedded as an event
trace plus a final outcome, with the HTTP transport supplied as an oracle
`HttpRequest → TransportResult`.

Modelling notes on the CSV library (an external collaborator of the repo):
cells are integers, decimal floats (mantissa/exponent), infinities, strings
or missing.  As pandas' numeric converters do, the model's converters strip
surrounding whitespace and accept case-insensitive infinity words, and an
integer column whose values overflow int64 falls through to the float
branch.  Finite floats are modelled as exact decimals (float64 rounding is
not represented), and uint64 columns, pandas' implicit-index inference for
files whose data rows are uniformly one field wider than the header,
boolean-column inference and header-name mangling for duplicate/empty names
are outside the model — the round-trip theorem's hypotheses confine it to
int64-range integer columns and object columns of strings that no pandas
converter touches.
-/

namespace App

/-- A scalar cell of the tabular dataset: integer, finite decimal float
(`m / 10 ^ e`), signed infinity, string, or missing (pandas `NaN`). -/
inductive Cell where
  | int (n : Int)
  | float (m : Int) (e : Nat)
  | inf (neg : Bool)
  | str (s : String)
  | missing
deriving DecidableEq

/-- The in-memory tabular structure produced by the loader: ordered column
names plus rows of cells (row-major). -/
structure Dataset where
  cols : List String
  rows : List (List Cell)
deriving DecidableEq

/-- The empty frame `pd.DataFrame()` returned by `load_data` on error. -/
def emptyDataset : Dataset := { cols := [], rows := [] }

/-- Emptiness test `DataFrame.empty`: true when there are no rows (or no columns). -/
def Dataset.isEmpty (d : Dataset) : Bool := d.rows.isEmpty || d.cols.isEmpty

/-! ### Decimal digits -/

def isDigitCh (c : Char) : Bool := 48 ≤ c.toNat && c.toNat ≤ 57

def digitVal (c : Char) : Nat := c.toNat - 48

def digitOf : Nat → Char
  | 0 => '0' | 1 => '1' | 2 => '2' | 3 => '3' | 4 => '4'
  | 5 => '5' | 6 => '6' | 7 => '7' | 8 => '8' | _ => '9'

def digitsVal (ds : List Char) : Nat := ds.foldl (fun a c => 10 * a + digitVal c) 0

/-- Decimal digits of `n`, most significant first; the first argument is
structural fuel (any fuel `> n` is enough). -/
def natDigitsAux : Nat → Nat → List Char
  | 0, _ => []
  | fuel + 1, n => if n < 10 then [digitOf n] else natDigitsAux fuel (n / 10) ++ [digitOf (n % 10)]

def natDigits (n : Nat) : List Char := natDigitsAux (n + 1) n

/-- Decimal rendering of an integer, as `to_csv` writes an int64 cell. -/
def intRaw (n : Int) : String :=
  if n < 0 then String.mk ('-' :: natDigits n.natAbs) else String.mk (natDigits n.natAbs)

/-- Decimal rendering of the float `m / 10 ^ e` (e.g. `12.5`, `-0.25`, `3.0`),
as `to_csv` writes a float cell. -/
def floatRaw (m : Int) (e : Nat) : String :=
  if e = 0 then String.mk (natDigits m.natAbs) ++ ".0"
  else
    let ds := natDigits m.natAbs
    let ds := if ds.length ≤ e then List.replicate (e + 1 - ds.length) '0' ++ ds else ds
    (if m < 0 then "-" else "")
      ++ String.mk (ds.take (ds.length - e)) ++ "." ++ String.mk (ds.drop (ds.length - e))

/-- The raw CSV text of one cell (`to_csv` writes missing values as the
empty field). -/
def cellToRaw : Cell → String
  | .int n => intRaw n
  | .float m e => floatRaw m e
  | .inf neg => if neg then "-inf" else "inf"
  | .str s => s
  | .missing => ""

/-! ### CSV serialization (`DataFrame.to_csv(index=False)`) -/

def specialCh (c : Char) : Bool := c = ',' || c = '"' || c = '\n' || c = '\r'

def needsQuoting (s : String) : Bool := s.data.any specialCh

def escapeQuotes : List Char → List Char
  | [] => []
  | c :: cs => if c = '"' then '"' :: '"' :: escapeQuotes cs else c :: escapeQuotes cs

/-- One serialized field, with `csv.QUOTE_MINIMAL` quoting: quoted (with
inner quotes doubled) exactly when it contains a separator, quote or line
break. -/
def sfChars (f : String) : List Char :=
  if needsQuoting f then '"' :: (escapeQuotes f.data ++ ['"']) else f.data

/-- One serialized record, fields joined by commas (no trailing comma). -/
def recChars : List String → List Char
  | [] => []
  | [f] => sfChars f
  | f :: g :: fs => sfChars f ++ ',' :: recChars (g :: fs)

/-- One serialized line: record plus the `\n` terminator. -/
def lineChars (fs : List String) : List Char := recChars fs ++ ['\n']

def joinAll : List (List Char) → List Char
  | [] => []
  | l :: ls => l ++ joinAll ls

/-- The dataset as raw textual records: header then one record per row. -/
def rawRecords (d : Dataset) : List (List String) :=
  d.cols :: d.rows.map (fun r => r.map cellToRaw)

/-- Serialization `data.to_csv(index=False)`: header line then one line per row. -/
def toCsv (d : Dataset) : String := String.mk (joinAll ((rawRecords d).map lineChars))

/-! ### CSV tokenization (the `read_csv` tokenizer) -/

inductive TMode where
  | recStart | fieldStart | inField | inQuotes | afterQuote | failed
deriving DecidableEq

/-- Tokenizer state: mode, current field accumulator, fields of the current
record, completed records. -/
structure TokSt where
  mode : TMode
  field : List Char
  rcd : List String
  recs : List (List String)

def pushField (st : TokSt) : TokSt :=
  { mode := .fieldStart, field := [], rcd := st.rcd ++ [String.mk st.field], recs := st.recs }

def pushRecord (st : TokSt) : TokSt :=
  { mode := .recStart, field := [], rcd := [],
    recs := st.recs ++ [st.rcd ++ [String.mk st.field]] }

/-- One step of the CSV tokenizer.  Blank lines are skipped
(`skip_blank_lines=True`); a quote is only special at the start of a field;
`\r`, `\n` and `\r\n` all terminate a record; text after a closing quote
that is not a separator or line break is a parse error. -/
def tokStep (st : TokSt) (c : Char) : TokSt :=
  match st.mode with
  | .failed => st
  | .inQuotes =>
      if c = '"' then { st with mode := .afterQuote }
      else { st with field := st.field ++ [c] }
  | .afterQuote =>
      if c = '"' then { st with mode := .inQuotes, field := st.field ++ [c] }
      else if c = ',' then pushField st
      else if c = '\n' || c = '\r' then pushRecord st
      else { st with mode := .failed }
  | .recStart =>
      if c = '\n' || c = '\r' then st
      else if c = '"' then { st with mode := .inQuotes }
      else if c = ',' then pushField st
      else { st with mode := .inField, field := [c] }
  | .fieldStart =>
      if c = '"' then { st with mode := .inQuotes }
      else if c = ',' then pushField st
      else if c = '\n' || c = '\r' then pushRecord st
      else { st with mode := .inField, field := [c] }
  | .inField =>
      if c = ',' then pushField st
      else if c = '\n' || c = '\r' then pushRecord st
      else { st with field := st.field ++ [c] }

def tokInit : TokSt := { mode := .recStart, field := [], rcd := [], recs := [] }

def tokRun (st : TokSt) (cs : List Char) : TokSt := cs.foldl tokStep st

/-- Finish tokenization at end of input: an unterminated quoted field is a
parse error; a final record without a trailing newline is still emitted. -/
def tokFinish (st : TokSt) : Option (List (List String)) :=
  match st.mode with
  | .failed => none
  | .inQuotes => none
  | .recStart => some st.recs
  | _ => some (pushRecord st).recs

def tokenize (s : String) : Option (List (List String)) := tokFinish (tokRun tokInit s.data)

/-! ### pandas-style per-column type inference -/

/-- The default `read_csv` NA tokens. -/
def naTokens : List String :=
  ["", "#N/A", "#N/A N/A", "#NA", "-1.#IND", "-1.#QNAN", "-NaN", "-nan",
   "1.#IND", "1.#QNAN", "<NA>", "N/A", "NA", "NULL", "NaN", "None", "n/a", "nan", "null"]

def isNA (s : String) : Bool := decide (s ∈ naTokens)

/-- C `isspace` characters, which pandas' numeric converters skip at both
ends of a field. -/
def isSpaceCh (c : Char) : Bool :=
  c = ' ' || c = '\t' || c = '\n' || c = '\x0b' || c = '\x0c' || c = '\r'

/-- Strip leading and trailing whitespace, as the numeric converters do. -/
def stripWs (ds : List Char) : List Char :=
  ((ds.dropWhile isSpaceCh).reverse.dropWhile isSpaceCh).reverse

def intLitCore : List Char → Bool
  | [] => false
  | c :: ds =>
      if c = '-' || c = '+' then !ds.isEmpty && ds.all isDigitCh
      else (c :: ds).all isDigitCh

/-- An integer literal as `str_to_int64` accepts it: optional surrounding
whitespace, optional sign, digits. -/
def isIntLit (s : String) : Bool := intLitCore (stripWs s.data)

def parseIntCore : List Char → Int
  | [] => 0
  | c :: ds =>
      if c = '-' then -(digitsVal ds : Int)
      else if c = '+' then (digitsVal ds : Int)
      else (digitsVal (c :: ds) : Int)

def parseIntLit (s : String) : Int := parseIntCore (stripWs s.data)

def stripSign (ds : List Char) : Bool × List Char :=
  match ds with
  | '-' :: t => (true, t)
  | '+' :: t => (false, t)
  | t => (false, t)

/-- Lower-case an ASCII letter. -/
def lowerCh (c : Char) : Char :=
  if 65 ≤ c.toNat && c.toNat ≤ 90 then Char.ofNat (c.toNat + 32) else c

/-- The infinity words the float converter accepts, case-insensitively. -/
def isInfWord (ds : List Char) : Bool :=
  decide (ds.map lowerCh = "inf".data) || decide (ds.map lowerCh = "infinity".data)

/-- Case variants of NaN (after whitespace and sign stripping). -/
def isNanWord (s : String) : Bool :=
  decide ((stripSign (stripWs s.data)).2.map lowerCh = "nan".data)

/-- Digits-with-optional-dot part of a float literal: its digits' value and
the number of digits after the dot. -/
def floatCore (ds : List Char) : Option (Nat × Nat) :=
  if ds.any isDigitCh && ds.all (fun c => isDigitCh c || c = '.')
      && (ds.filter (fun c => c = '.')).length ≤ 1 then
    some (digitsVal (ds.filter isDigitCh),
          (ds.dropWhile (fun c => !(c = '.'))).length - 1)
  else none

def splitExp (ds : List Char) : List Char × Option (List Char) :=
  let base := ds.takeWhile (fun c => !(c = 'e' || c = 'E'))
  match ds.dropWhile (fun c => !(c = 'e' || c = 'E')) with
  | [] => (base, none)
  | _ :: t => (base, some t)

/-- Strip trailing decimal zeros so that equal float values have one
representation. -/
def normFloat : Int → Nat → Int × Nat
  | m, 0 => (m, 0)
  | m, e + 1 => if m % 10 = 0 && !(m = 0) then normFloat (m / 10) e else (m, e + 1)

/-- A parsed float literal: a finite decimal value, or an infinity. -/
inductive FloatLit where
  | finite (m : Int) (e : Nat)
  | huge (neg : Bool)

/-- Parse a float literal as `precise_xstrtod` accepts it: optional
surrounding whitespace and sign, then an infinity word or digits with at
most one dot and an optional integer exponent; finite values are returned
in normalized mantissa/exponent form. -/
def parseFloatLit (s : String) : Option FloatLit :=
  let p := stripSign (stripWs s.data)
  if isInfWord p.2 then some (.huge p.1)
  else
    let q := splitExp p.2
    match floatCore q.1 with
    | none => none
    | some mf =>
        let expVal : Option Int :=
          match q.2 with
          | none => some 0
          | some es =>
              let ep := stripSign es
              if !ep.2.isEmpty && ep.2.all isDigitCh then
                some (if ep.1 then -(digitsVal ep.2 : Int) else (digitsVal ep.2 : Int))
              else none
        match expVal with
        | none => none
        | some ex =>
            let e10 : Int := ex - mf.2
            let m : Int := if p.1 then -(mf.1 : Int) else (mf.1 : Int)
            if 0 ≤ e10 then some (.finite (m * 10 ^ e10.toNat) 0)
            else some (.finite (normFloat m (-e10).toNat).1 (normFloat m (-e10).toNat).2)

/-- The int64 range; an integer column with values outside it is not kept
as int64 by pandas (it falls back to float64 or uint64), so integer
inference requires it. -/
def fitsInt64 (n : Int) : Bool := decide (-(2 ^ 63) ≤ n) && decide (n < 2 ^ 63)

/-- The inferred dtype of one column of raw fields: all-NA, integer (only
when no field is NA), float (ints, floats and NAs mixed), else object. -/
inductive ColKind where
  | kint | kfloat | kobj | kna
deriving DecidableEq

def inferKind (raw : List String) : ColKind :=
  if raw.all isNA then .kna
  else if raw.all (fun s => isIntLit s && fitsInt64 (parseIntLit s)) then .kint
  else if raw.all (fun s => isNA s || (parseFloatLit s).isSome) then .kfloat
  else .kobj

def applyKind (k : ColKind) (s : String) : Cell :=
  match k with
  | .kna => .missing
  | .kint => .int (parseIntLit s)
  | .kfloat =>
      if isNA s then .missing
      else
        match parseFloatLit s with
        | some (.finite m e) => .float m e
        | some (.huge neg) => .inf neg
        | none => .missing
  | .kobj => if isNA s then .missing else .str s

def colRaw (recs : List (List String)) (j : Nat) : List String :=
  recs.map (fun r => r.getD j "")

/-- Records padded on the right with empty (NA) fields up to the header
width, as the tokenizer does for short rows. -/
def padRecords (n : Nat) (body : List (List String)) : List (List String) :=
  body.map (fun r => r ++ List.replicate (n - r.length) "")

/-- The inferred dtype of each of the `n` columns. -/
def colKinds (n : Nat) (recs : List (List String)) : List ColKind :=
  (List.range n).map (fun j => inferKind (colRaw recs j))

/-- The parsed rows: pad each record, then decode each field with its
column's inferred kind. -/
def inferRows (header : List String) (body : List (List String)) : List (List Cell) :=
  (padRecords header.length body).map (fun r =>
    (r.zip (colKinds header.length (padRecords header.length body))).map
      (fun p => applyKind p.2 p.1))

/-- Parsing `pd.read_csv` on a text: tokenize (quote-aware, blank lines skipped),
fail on no records (`EmptyDataError`) or on a record wider than the header
(`ParserError`), pad short records with NA fields, then apply per-column
type inference. -/
def readCsv (text : String) : Except String Dataset :=
  match tokenize text with
  | none => .error "ParserError"
  | some [] => .error "EmptyDataError"
  | some (header :: body) =>
      if body.any (fun r => header.length < r.length) then .error "ParserError"
      else .ok { cols := header, rows := inferRows header body }

/-! ### The chat-completion request (`send_prompt_to_mistral`) -/

/-- One `{role, content}` entry of the `messages` list. -/
structure ChatMessage where
  role : String
  content : String
deriving DecidableEq

/-- The JSON request body.  `temperature` is the decimal `mant / 10 ^ exp`
(so `(1, 1)` is `0.1`), avoiding machine floats in the model. -/
structure ChatPayload where
  model : String
  messages : List ChatMessage
  temperature : Int × Nat
  max_tokens : Nat
deriving DecidableEq

/-- The outbound HTTP POST: endpoint URL, the two headers, and the body. -/
structure HttpRequest where
  url : String
  authHeader : String
  contentTypeHeader : String
  payload : ChatPayload
deriving DecidableEq

/-- One entry of the response's `choices` array. -/
structure RespChoice where
  message : ChatMessage
deriving DecidableEq

/-- The decoded JSON response body: presence/value of the `error` key and of
the `choices` key. -/
structure ApiResponse where
  error : Option String
  choices : Option (List RespChoice)
deriving DecidableEq

/-- Result of the one `requests.post` call: either a decoded 2xx body, or a
`requests.exceptions.RequestException` (network failure, or the `HTTPError`
raised by `raise_for_status()` on a non-2xx status) carrying its message. -/
inductive TransportResult where
  | success (body : ApiResponse)
  | exc (msg : String)

/-- Everything the app shows or does, in order: Streamlit display calls and
the outbound HTTP POST. -/
inductive Event where
  | title (s : String)
  | markdown (s : String)
  | subheader (s : String)
  | errorMsg (s : String)
  | warningMsg (s : String)
  | infoMsg (s : String)
  | writeMsg (s : String)
  | jsonDump (r : ApiResponse)
  | httpPost (req : HttpRequest)
  | divider
  | dataframeShown
deriving DecidableEq

/-- The HTTP requests issued during a trace. -/
def requestsOf (evs : List Event) : List HttpRequest :=
  evs.filterMap (fun e => match e with | .httpPost r => some r | _ => none)

def mistralUrl : String := "https://api.mistral.ai/v1/chat/completions"

/-- The fixed system instruction of the prompt. -/
def systemInstruction : String :=
  "You are a highly intelligent HR data analyst. Your task is to answer questions about the provided HR dataset. The dataset is in a text format (CSV converted to string). Analyze the data carefully and provide insightful answers based on the information provided. If a question cannot be answered from the provided data, state that clearly. Be concise and accurate."

/-- The user message: serialized dataset then the question, embedded in the
fixed f-string template. -/
def userContent (data_context prompt_text : String) : String :=
  "Here is the HR dataset:\n\n" ++ data_context
    ++ "\n\nBased on this data, please answer the following question:\n\n" ++ prompt_text

/-- The single POST built by `send_prompt_to_mistral`: bearer-token header
from the key, fixed model id, system-then-user messages, temperature 0.1,
max_tokens 10000. -/
def buildRequest (key prompt_text data_context : String) : HttpRequest :=
  { url := mistralUrl,
    authHeader := "Bearer " ++ key,
    contentTypeHeader := "application/json",
    payload := { model := "mistral-large-latest",
                 messages := [{ role := "system", content := systemInstruction },
                              { role := "user", content := userContent data_context prompt_text }],
                 temperature := (1, 1),
                 max_tokens := 10000 } }

/-- Model of `send_prompt_to_mistral`: issue the one POST; on success return
the decoded body, on a `RequestException` show the error and return the
`{"error": str(e)}` dictionary. -/
def sendPromptToMistral (tp : HttpRequest → TransportResult)
    (key prompt_text data_context : String) : List Event × ApiResponse :=
  let req := buildRequest key prompt_text data_context
  match tp req with
  | .success body => ([.httpPost req], body)
  | .exc e => ([.httpPost req, .errorMsg ("API Request Error: " ++ e)],
               { error := some e, choices := none })

/-! ### The main flow (`load_data` and `main`) -/

/-- Result of a Python call: a value, or an uncaught exception. -/
inductive PyResult (α : Type) where
  | ok (a : α)
  | raised (exc : String)
deriving DecidableEq

def csvPath : String := "hr_dataset_switzerland.csv"

def fileNotFoundMsg (path : String) : String :=
  "Error: The file '" ++ path ++ "' was not found."

/-- Model of `load_data`: a missing file (`FileNotFoundError`) is caught and
yields an error message plus the empty frame; any `read_csv` parse failure
(`ParserError`, `EmptyDataError`) is not a `FileNotFoundError`, so it
propagates out of the function. -/
def load_data (fs : String → Option String) (path : String) :
    List Event × PyResult Dataset :=
  match fs path with
  | none => ([.errorMsg (fileNotFoundMsg path)], .ok emptyDataset)
  | some text =>
      match readCsv text with
      | .ok d => ([], .ok d)
      | .error e => ([], .raised e)

def apiKeyMissingMsg : String :=
  "MISTRAL_API_KEY not found in environment variables. Please set it in your .env file."

def titleMsg : String := "HR Dataset Switzerland Q&A with Mistral AI"

def introMsg : String :=
  "\n    Ask questions about the `hr_dataset_switzerland.csv` file, and Mistral AI will provide insights.\n    "

def couldNotLoadMsg : String :=
  "Could not load data. Please ensure 'hr_dataset_switzerland.csv' is in the same directory."

def sizeWarnMsg (len : Nat) : String :=
  "The dataset is large (" ++ String.mk (natDigits len) ++ " characters). "
    ++ "If you encounter errors about context length, consider using a more advanced data chunking/retrieval strategy (RAG)."

def ctxToken : String := "context_length_exceeded"

def ctxHint : String :=
  "The data you sent likely exceeded the model's context window. "
    ++ "You might need to shorten the CSV data or implement RAG."

def noValidMsg : String := "No valid response received from the API."

def promptMsg : String := "Please enter a question or query."

def startsWithChars : List Char → List Char → Bool
  | _, [] => true
  | [], _ :: _ => false
  | c :: cs, d :: ds => c = d && startsWithChars cs ds

def containsChars (hay needle : List Char) : Bool :=
  match hay with
  | [] => startsWithChars [] needle
  | c :: t => startsWithChars (c :: t) needle || containsChars t needle

/-- Python's `needle in hay` on strings: substring containment. -/
def containsSubstr (hay needle : String) : Bool := containsChars hay.data needle.data

/-- The response-dispatch block of `main` (lines 112-121): the `error`-key
check strictly precedes the `choices` check; a truthy (non-empty) `choices`
list shows the first choice's message content; otherwise the fallback
message plus a JSON dump of the body. -/
def handleResponse (r : ApiResponse) : List Event :=
  match r.error with
  | some msg =>
      [.errorMsg ("Error from API: " ++ msg)]
        ++ (if containsSubstr msg ctxToken then [.infoMsg ctxHint] else [])
  | none =>
      match r.choices with
      | some (c :: _) => [.writeMsg c.message.content]
      | _ => [.writeMsg noValidMsg, .jsonDump r]

/-- How a run of the script ends: normal completion, `st.stop()` at startup,
or an uncaught Python exception. -/
inductive RunOutcome where
  | completed
  | stoppedAtStartup
  | crashed (exc : String)
deriving DecidableEq

structure RunResult where
  events : List Event
  outcome : RunOutcome
deriving DecidableEq

/-- Model of `main()` after the startup key check: title and intro, load the
CSV (an uncaught parse error aborts the run), bail out with a warning if the
frame is empty, serialize, maybe warn about size, then on a button press
either send the question or prompt for one, and finally show the raw data. -/
def mainRun (key : String) (fs : String → Option String) (question : String)
    (button : Bool) (tp : HttpRequest → TransportResult) : RunResult :=
  let ev0 : List Event := [.title titleMsg, .markdown introMsg]
  match load_data fs csvPath with
  | (levs, .raised e) => { events := ev0 ++ levs, outcome := .crashed e }
  | (levs, .ok data) =>
      if data.isEmpty then
        { events := ev0 ++ levs ++ [.warningMsg couldNotLoadMsg], outcome := .completed }
      else
        let dataStr := toCsv data
        let sizeEvs : List Event :=
          if 10000 < dataStr.length then [.warningMsg (sizeWarnMsg dataStr.length)] else []
        let buttonEvs : List Event :=
          if button then
            if question = "" then [.writeMsg promptMsg]
            else
              let sr := sendPromptToMistral tp key question dataStr
              sr.1 ++ [.subheader "Mistral AI Response"] ++ handleResponse sr.2
          else []
        { events := ev0 ++ levs ++ sizeEvs ++ buttonEvs ++ [.divider, .dataframeShown],
          outcome := .completed }

/-! ### Well-typedness predicates for the round-trip statement -/

/-- The cells of column `j`. -/
def colCells (d : Dataset) (j : Nat) : List Cell := d.rows.map (fun r => r.getD j Cell.missing)

def cellIsInt : Cell → Bool
  | .int n => fitsInt64 n
  | _ => false

/-- Python truthy words that `read_csv` would turn into a boolean column
(boolean inference is outside the model; excluded for faithfulness). -/
def boolTokens : List String := ["True", "False", "TRUE", "FALSE", "true", "false"]

/-- A string cell whose raw text survives type inference unchanged: not an
NA token, not an integer, float or infinity literal (surrounding whitespace
included), not a boolean word (even whitespace-padded) and not a NaN case
variant — the last two conservatively, since the model does not represent
boolean or NaN conversion. -/
def safeStr (s : String) : Bool :=
  !isNA s && !isIntLit s && !(parseFloatLit s).isSome
    && !(decide (String.mk (stripWs s.data) ∈ boolTokens)) && !isNanWord s

def cellObjSafe : Cell → Bool
  | .missing => true
  | .str s => safeStr s
  | _ => false

/-- A column round-trips when it is all-integer, or an object column of
missing values and inference-safe strings. -/
def colOk (cs : List Cell) : Bool := cs.all cellIsInt || cs.all cellObjSafe

def wellTyped (d : Dataset) : Bool :=
  (List.range d.cols.length).all (fun j => colOk (colCells d j))

/-- Every row has exactly one cell per column (the Dataset invariant of the
data model). -/
def wellShaped (d : Dataset) : Bool := d.rows.all (fun r => r.length = d.cols.length)

/-- Python truthiness of the key: `not MISTRAL_API_KEY` is true for `None`
(variable absent) and for the empty string. -/
def keyMissing : Option String → Bool
  | none => true
  | some s => s = ""

/-- The whole script run: the module-level key check (`st.error` plus
`st.stop()` before anything is rendered), then `main()`. -/
def runApp (key : Option String) (fs : String → Option String) (question : String)
    (button : Bool) (tp : HttpRequest → TransportResult) : RunResult :=
  if keyMissing key then
    { events := [.errorMsg apiKeyMissingMsg], outcome := .stoppedAtStartup }
  else mainRun (key.getD "") fs question button tp

instance : DecidableEq (Except String Dataset) := fun a b =>
  match a, b with
  | .ok x, .ok y => if h : x = y then .isTrue (by rw [h]) else .isFalse (by simp [h])
  | .error e, .error f => if h : e = f then .isTrue (by rw [h]) else .isFalse (by simp [h])
  | .ok _, .error _ => .isFalse (by simp)
  | .error _, .ok _ => .isFalse (by simp)

/-! ### Concrete fixtures and the spec-literal request reading -/

/-- A file system in which the dataset file holds exactly `text`. -/
def fsWith (text : String) : String → Option String :=
  fun p => if p = csvPath then some text else none

/-- A 200 body with no `error` key and one choice answering `"42"`. -/
def bodyOk : ApiResponse :=
  { error := none,
    choices := some [{ message := { role := "assistant", content := "42" } }] }

/-- A 200 body that is well-formed JSON but has no `error` and no `choices`. -/
def bodyEmpty : ApiResponse := { error := none, choices := none }

/-- A transport that always fails with the given exception message. -/
def tpFail (msg : String) : HttpRequest → TransportResult := fun _ => .exc msg

/-- A transport that always succeeds with the given body. -/
def tpOk (body : ApiResponse) : HttpRequest → TransportResult := fun _ => .success body

/-- A tiny one-column integer dataset; its CSV text is `"a\n1\n"`. -/
def dOneCol : Dataset := { cols := ["a"], rows := [[Cell.int 1]] }

/-- A dataset whose single cell is the string `"1"`. -/
def dStr1 : Dataset := { cols := ["c"], rows := [[Cell.str "1"]] }

/-- The spec's end-to-end scenario dataset. -/
def dScenario : Dataset :=
  { cols := ["Department", "Salary"],
    rows := [[Cell.str "Eng", Cell.int 100], [Cell.str "Eng", Cell.int 200],
             [Cell.str "HR", Cell.int 50]] }

/-- A 200 body carrying both an `error` key and a non-empty `choices` array. -/
def bodyBoth : ApiResponse :=
  { error := some "boom",
    choices := some [{ message := { role := "assistant", content := "42" } }] }

/-- Literal reading of claim C1's user message: the serialized dataset
followed immediately by the question text, nothing else. -/
def claimUserContent (data_context prompt_text : String) : String :=
  data_context ++ prompt_text

/-- The request claim C1 describes, under the literal reading of its user
message (all other fields as the code builds them). -/
def claimRequest (key prompt_text data_context : String) : HttpRequest :=
  { url := mistralUrl,
    authHeader := "Bearer " ++ key,
    contentTypeHeader := "application/json",
    payload := { model := "mistral-large-latest",
                 messages := [{ role := "system", content := systemInstruction },
                              { role := "user",
                                content := claimUserContent data_context prompt_text }],
                 temperature := (1, 1),
                 max_tokens := 10000 } }

/-! ## Lemmas: decimal digits and integer literals -/

@[simp] theorem data_mk (l : List Char) : (String.mk l).data = l := rfl

@[simp] theorem mk_data (s : String) : String.mk s.data = s := rfl

theorem data_eq_nil_iff (s : String) : s.data = [] ↔ s = "" := by
  cases s with
  | mk l =>
      constructor
      · intro h; simp_all
      · intro h; rw [show ("" : String) = String.mk [] from rfl] at h
        exact congrArg String.data h

theorem digitVal_digitOf (k : Nat) (h : k < 10) : digitVal (digitOf k) = k := by
  interval_cases k <;> rfl

theorem isDigitCh_digitOf (k : Nat) (h : k < 10) : isDigitCh (digitOf k) = true := by
  interval_cases k <;> rfl

theorem digitsVal_append (ds : List Char) (c : Char) :
    digitsVal (ds ++ [c]) = 10 * digitsVal ds + digitVal c := by
  simp [digitsVal, List.foldl_append]

theorem natDigitsAux_sound (fuel : Nat) : ∀ n, n < fuel → digitsVal (natDigitsAux fuel n) = n := by
  induction fuel with
  | zero => omega
  | succ fuel ih =>
      intro n hn
      rw [natDigitsAux]
      by_cases h10 : n < 10
      · simp [h10, digitsVal, digitVal_digitOf n h10]
      · have hlt : n / 10 < fuel := by
          have := Nat.div_lt_self (show 0 < n by omega) (show 1 < 10 by omega)
          omega
        rw [if_neg h10, digitsVal_append, ih _ hlt, digitVal_digitOf _ (Nat.mod_lt n (by omega))]
        omega

theorem natDigits_sound (n : Nat) : digitsVal (natDigits n) = n :=
  natDigitsAux_sound _ _ (Nat.lt_succ_self n)

theorem natDigitsAux_ne_nil (fuel n : Nat) (h : n < fuel) : natDigitsAux fuel n ≠ [] := by
  cases fuel with
  | zero => omega
  | succ fuel => rw [natDigitsAux]; by_cases h10 : n < 10 <;> simp [h10]

theorem natDigits_ne_nil (n : Nat) : natDigits n ≠ [] :=
  natDigitsAux_ne_nil _ _ (Nat.lt_succ_self n)

theorem natDigitsAux_digits (fuel : Nat) :
    ∀ n, n < fuel → (natDigitsAux fuel n).all isDigitCh = true := by
  induction fuel with
  | zero => omega
  | succ fuel ih =>
      intro n hn
      rw [natDigitsAux]
      by_cases h10 : n < 10
      · simp [h10, isDigitCh_digitOf n h10]
      · have hlt : n / 10 < fuel := by
          have := Nat.div_lt_self (show 0 < n by omega) (show 1 < 10 by omega)
          omega
        rw [if_neg h10]
        simp [List.all_append, ih _ hlt, isDigitCh_digitOf _ (Nat.mod_lt n (by omega))]

theorem natDigits_digits (n : Nat) : (natDigits n).all isDigitCh = true :=
  natDigitsAux_digits _ _ (Nat.lt_succ_self n)

theorem isDigitCh_ne_signs (c : Char) (h : isDigitCh c = true) : c ≠ '-' ∧ c ≠ '+' := by
  constructor <;> rintro rfl <;> exact absurd h (by decide)

theorem intLitCore_cons (c : Char) (ds : List Char) :
    intLitCore (c :: ds) =
      if c = '-' || c = '+' then !ds.isEmpty && ds.all isDigitCh
      else (c :: ds).all isDigitCh := rfl

theorem parseIntCore_cons (c : Char) (ds : List Char) :
    parseIntCore (c :: ds) =
      if c = '-' then -(digitsVal ds : Int)
      else if c = '+' then (digitsVal ds : Int)
      else (digitsVal (c :: ds) : Int) := rfl

theorem stripWs_no_space (ds : List Char) (h : ∀ c ∈ ds, isSpaceCh c = false) :
    stripWs ds = ds := by
  have h1 : ds.dropWhile isSpaceCh = ds := by
    cases ds with
    | nil => rfl
    | cons a l => rw [List.dropWhile_cons, if_neg (by simp [h a (by simp)])]
  rw [stripWs, h1]
  have h2 : ds.reverse.dropWhile isSpaceCh = ds.reverse := by
    cases hrev : ds.reverse with
    | nil => rfl
    | cons b bs =>
        have hb : b ∈ ds := by rw [← List.mem_reverse, hrev]; simp
        rw [List.dropWhile_cons, if_neg (by simp [h b hb])]
  rw [h2, List.reverse_reverse]

theorem isDigitCh_not_space (c : Char) (h : isDigitCh c = true) : isSpaceCh c = false := by
  have h1 : c ≠ ' ' := by rintro rfl; exact absurd h (by decide)
  have h2 : c ≠ '\t' := by rintro rfl; exact absurd h (by decide)
  have h3 : c ≠ '\n' := by rintro rfl; exact absurd h (by decide)
  have h4 : c ≠ '\x0b' := by rintro rfl; exact absurd h (by decide)
  have h5 : c ≠ '\x0c' := by rintro rfl; exact absurd h (by decide)
  have h6 : c ≠ '\r' := by rintro rfl; exact absurd h (by decide)
  simp [isSpaceCh, h1, h2, h3, h4, h5, h6]

theorem stripWs_intRaw (n : Int) : stripWs (intRaw n).data = (intRaw n).data := by
  apply stripWs_no_space
  intro c hc
  unfold intRaw at hc
  by_cases hneg : n < 0
  · rw [if_pos hneg] at hc
    simp only [data_mk] at hc
    rcases List.mem_cons.1 hc with rfl | hc2
    · decide
    · exact isDigitCh_not_space c (List.all_eq_true.1 (natDigits_digits n.natAbs) c hc2)
  · rw [if_neg hneg] at hc
    simp only [data_mk] at hc
    exact isDigitCh_not_space c (List.all_eq_true.1 (natDigits_digits n.natAbs) c hc)

theorem isIntLit_intRaw (n : Int) : isIntLit (intRaw n) = true := by
  rw [isIntLit, stripWs_intRaw]
  unfold intRaw
  by_cases hneg : n < 0
  · rw [if_pos hneg]
    simp only [data_mk, intLitCore_cons]
    have hall := natDigits_digits n.natAbs
    have hnil := natDigits_ne_nil n.natAbs
    simp [hall, hnil]
  · rw [if_neg hneg]
    obtain ⟨c, cs, hcons⟩ := List.exists_cons_of_ne_nil (natDigits_ne_nil n.natAbs)
    have hall := natDigits_digits n.natAbs
    rw [hcons] at hall
    have hd : isDigitCh c = true := by
      simp only [List.all_cons, Bool.and_eq_true] at hall; exact hall.1
    obtain ⟨h1, h2⟩ := isDigitCh_ne_signs c hd
    simp only [data_mk, hcons, intLitCore_cons]
    simp only [h1, h2]
    simp [hall, hd]

theorem parseIntLit_intRaw (n : Int) : parseIntLit (intRaw n) = n := by
  rw [parseIntLit, stripWs_intRaw]
  unfold intRaw
  by_cases hneg : n < 0
  · rw [if_pos hneg]
    simp only [data_mk, parseIntCore_cons]
    rw [if_pos trivial, natDigits_sound]
    omega
  · rw [if_neg hneg]
    obtain ⟨c, cs, hcons⟩ := List.exists_cons_of_ne_nil (natDigits_ne_nil n.natAbs)
    have hall := natDigits_digits n.natAbs
    rw [hcons] at hall
    have hd : isDigitCh c = true := by
      simp only [List.all_cons, Bool.and_eq_true] at hall; exact hall.1
    obtain ⟨h1, h2⟩ := isDigitCh_ne_signs c hd
    simp only [data_mk, hcons, parseIntCore_cons]
    rw [if_neg h1, if_neg h2, ← hcons, natDigits_sound]
    omega

/-! ## Lemmas: NA tokens -/

theorem isNA_iff (s : String) : isNA s = true ↔ s ∈ naTokens := by
  simp [isNA]

theorem naTokens_not_intLit : ∀ s ∈ naTokens, isIntLit s = false := by decide

theorem not_isNA_of_isIntLit (s : String) (h : isIntLit s = true) : isNA s = false := by
  cases hna : isNA s with
  | false => rfl
  | true =>
      rw [naTokens_not_intLit s ((isNA_iff s).1 hna)] at h
      cases h

theorem isNA_empty : isNA "" = true := by decide

/-! ## Lemmas: the tokenizer inverts the serializer -/

theorem tokRun_nil (st : TokSt) : tokRun st [] = st := rfl

theorem tokRun_cons (st : TokSt) (c : Char) (cs : List Char) :
    tokRun st (c :: cs) = tokRun (tokStep st c) cs := rfl

theorem tokRun_append (st : TokSt) (a b : List Char) :
    tokRun st (a ++ b) = tokRun (tokRun st a) b := by
  simp [tokRun, List.foldl_append]

theorem specialCh_eq_false (c : Char) (h : specialCh c = false) :
    c ≠ ',' ∧ c ≠ '"' ∧ c ≠ '\n' ∧ c ≠ '\r' := by
  refine ⟨?_, ?_, ?_, ?_⟩ <;> rintro rfl <;> exact absurd h (by decide)

theorem tokRun_ordinary (cs : List Char) :
    ∀ fl rcd recs, (∀ c ∈ cs, specialCh c = false) →
      tokRun ⟨.inField, fl, rcd, recs⟩ cs = ⟨.inField, fl ++ cs, rcd, recs⟩ := by
  induction cs with
  | nil => intro fl rcd recs _; simp [tokRun_nil]
  | cons c cs ih =>
      intro fl rcd recs h
      obtain ⟨h1, h2, h3, h4⟩ := specialCh_eq_false c (h c (by simp))
      rw [tokRun_cons]
      have hstep : tokStep ⟨TMode.inField, fl, rcd, recs⟩ c = ⟨TMode.inField, fl ++ [c], rcd, recs⟩ := by
        simp [tokStep, h1, h3, h4]
      rw [hstep, ih (fl ++ [c]) rcd recs (fun x hx => h x (by simp [hx]))]
      simp

theorem escapeQuotes_cons_quote (cs : List Char) :
    escapeQuotes ('"' :: cs) = '"' :: '"' :: escapeQuotes cs := by simp [escapeQuotes]

theorem escapeQuotes_cons_other (c : Char) (cs : List Char) (hc : c ≠ '"') :
    escapeQuotes (c :: cs) = c :: escapeQuotes cs := by simp [escapeQuotes, hc]

theorem needsQuoting_special (f : String) (hq : needsQuoting f = false) :
    ∀ x ∈ f.data, specialCh x = false := by
  intro x hx
  exact Bool.of_not_eq_true (List.any_eq_false.1 hq x hx)

theorem tokRun_quoted (cs : List Char) :
    ∀ fl rcd recs rest,
      tokRun ⟨.inQuotes, fl, rcd, recs⟩ (escapeQuotes cs ++ rest)
        = tokRun ⟨.inQuotes, fl ++ cs, rcd, recs⟩ rest := by
  induction cs with
  | nil => intro fl rcd recs rest; simp [escapeQuotes]
  | cons c cs ih =>
      intro fl rcd recs rest
      by_cases hc : c = '"'
      · subst hc
        rw [escapeQuotes_cons_quote, List.cons_append, List.cons_append, tokRun_cons, tokRun_cons]
        have s1 : tokStep ⟨TMode.inQuotes, fl, rcd, recs⟩ '"' = ⟨TMode.afterQuote, fl, rcd, recs⟩ := by
          simp [tokStep]
        have s2 : tokStep ⟨TMode.afterQuote, fl, rcd, recs⟩ '"'
            = ⟨TMode.inQuotes, fl ++ ['"'], rcd, recs⟩ := by
          simp [tokStep]
        rw [s1, s2, ih]
        simp
      · rw [escapeQuotes_cons_other c cs hc, List.cons_append, tokRun_cons]
        have s1 : tokStep ⟨TMode.inQuotes, fl, rcd, recs⟩ c = ⟨TMode.inQuotes, fl ++ [c], rcd, recs⟩ := by
          simp [tokStep, hc]
        rw [s1, ih]
        simp

/-- Running the serialized form of one field from the start-of-field state
accumulates exactly that field, ending in a mode ready for a delimiter. -/
theorem tokRun_sfChars (f : String) (rcd : List String) (recs : List (List String)) :
    ∃ m, (m = TMode.fieldStart ∨ m = TMode.inField ∨ m = TMode.afterQuote) ∧
      tokRun ⟨.fieldStart, [], rcd, recs⟩ (sfChars f) = ⟨m, f.data, rcd, recs⟩ := by
  by_cases hq : needsQuoting f
  · refine ⟨.afterQuote, by simp, ?_⟩
    rw [sfChars, if_pos hq, tokRun_cons]
    have s1 : tokStep ⟨TMode.fieldStart, [], rcd, recs⟩ '"' = ⟨TMode.inQuotes, [], rcd, recs⟩ := by
      simp [tokStep]
    rw [s1, tokRun_quoted f.data [] rcd recs ['"'], tokRun_cons, tokRun_nil]
    simp [tokStep]
  · cases hf : f.data with
    | nil =>
        refine ⟨.fieldStart, by simp, ?_⟩
        rw [sfChars, if_neg hq, hf, tokRun_nil]
    | cons c cs =>
        refine ⟨.inField, by simp, ?_⟩
        have hns : ∀ x ∈ f.data, specialCh x = false :=
          needsQuoting_special f (Bool.of_not_eq_true hq)
        rw [sfChars, if_neg hq, hf, tokRun_cons]
        obtain ⟨h1, h2, h3, h4⟩ := specialCh_eq_false c (hns c (by simp [hf]))
        have s1 : tokStep ⟨TMode.fieldStart, [], rcd, recs⟩ c = ⟨TMode.inField, [c], rcd, recs⟩ := by
          simp [tokStep, h1, h2, h3, h4]
        rw [s1, tokRun_ordinary cs [c] rcd recs (fun x hx => hns x (by simp [hf, hx]))]
        simp

theorem tokStep_comma (m : TMode) (fl : List Char) (rcd : List String)
    (recs : List (List String))
    (hm : m = TMode.fieldStart ∨ m = TMode.inField ∨ m = TMode.afterQuote) :
    tokStep ⟨m, fl, rcd, recs⟩ ','
      = ⟨TMode.fieldStart, [], rcd ++ [String.mk fl], recs⟩ := by
  rcases hm with rfl | rfl | rfl <;> simp [tokStep, pushField]

theorem tokStep_newline (m : TMode) (fl : List Char) (rcd : List String)
    (recs : List (List String))
    (hm : m = TMode.fieldStart ∨ m = TMode.inField ∨ m = TMode.afterQuote) :
    tokStep ⟨m, fl, rcd, recs⟩ '\n'
      = ⟨TMode.recStart, [], [], recs ++ [rcd ++ [String.mk fl]]⟩ := by
  rcases hm with rfl | rfl | rfl <;> simp [tokStep, pushRecord]

/-- Running one serialized line from the start-of-field state closes the
current record extended with the line's fields. -/
theorem tokRun_line (rest : List String) :
    ∀ (f : String) (rcd : List String) (recs : List (List String)),
      tokRun ⟨.fieldStart, [], rcd, recs⟩ (lineChars (f :: rest))
        = ⟨.recStart, [], [], recs ++ [rcd ++ (f :: rest)]⟩ := by
  induction rest with
  | nil =>
      intro f rcd recs
      have hrec : lineChars [f] = sfChars f ++ ['\n'] := by simp [lineChars, recChars]
      obtain ⟨m, hm, hrun⟩ := tokRun_sfChars f rcd recs
      rw [hrec, tokRun_append, hrun, tokRun_cons, tokRun_nil, tokStep_newline m f.data rcd recs hm]
  | cons g rest2 ih =>
      intro f rcd recs
      have hrec : lineChars (f :: g :: rest2)
          = sfChars f ++ (',' :: lineChars (g :: rest2)) := by
        simp [lineChars, recChars, List.append_assoc]
      obtain ⟨m, hm, hrun⟩ := tokRun_sfChars f rcd recs
      rw [hrec, tokRun_append, hrun, tokRun_cons, tokStep_comma m f.data rcd recs hm,
        ih g (rcd ++ [String.mk f.data]) recs]
      simp

theorem tokStep_recStart_eq (c : Char) (h1 : c ≠ '\n') (h2 : c ≠ '\r')
    (fl : List Char) (rcd : List String) (recs : List (List String)) :
    tokStep ⟨.recStart, fl, rcd, recs⟩ c = tokStep ⟨.fieldStart, fl, rcd, recs⟩ c := by
  by_cases hq : c = '"'
  · subst hq; simp [tokStep]
  · by_cases hcm : c = ','
    · subst hcm; simp [tokStep, pushField]
    · simp [tokStep, h1, h2, hq, hcm]

theorem sfChars_head (f : String) (hf : f ≠ "") :
    ∃ c cs, sfChars f = c :: cs ∧ c ≠ '\n' ∧ c ≠ '\r' := by
  by_cases hq : needsQuoting f
  · exact ⟨'"', escapeQuotes f.data ++ ['"'], by simp [sfChars, hq], by decide, by decide⟩
  · have hd : f.data ≠ [] := fun h => hf ((data_eq_nil_iff f).1 h)
    obtain ⟨c, cs, hcons⟩ := List.exists_cons_of_ne_nil hd
    have hns : specialCh c = false :=
      needsQuoting_special f (Bool.of_not_eq_true hq) c (by simp [hcons])
    obtain ⟨_, _, h3, h4⟩ := specialCh_eq_false c hns
    exact ⟨c, cs, by simp [sfChars, hq, hcons], h3, h4⟩

theorem lineChars_head (fs : List String) (hne : fs ≠ []) (hnb : fs ≠ [""]) :
    ∃ c cs, lineChars fs = c :: cs ∧ c ≠ '\n' ∧ c ≠ '\r' := by
  cases fs with
  | nil => exact absurd rfl hne
  | cons f rest =>
      by_cases hf : f = ""
      · subst hf
        cases rest with
        | nil => exact absurd rfl hnb
        | cons g rest2 =>
            refine ⟨',', lineChars (g :: rest2), ?_, by decide, by decide⟩
            have : sfChars "" = [] := by simp [sfChars, needsQuoting]
            simp [lineChars, recChars, this]
      · obtain ⟨c, cs, hsf, h3, h4⟩ := sfChars_head f hf
        cases rest with
        | nil => exact ⟨c, cs ++ ['\n'], by simp [lineChars, recChars, hsf], h3, h4⟩
        | cons g rest2 =>
            exact ⟨c, cs ++ (',' :: lineChars (g :: rest2)), by
              simp [lineChars, recChars, hsf, List.append_assoc], h3, h4⟩

/-- Running one serialized line from the start-of-record state appends
exactly that record (given that the line is not blank). -/
theorem tokRun_lineTop (fs : List String) (hne : fs ≠ []) (hnb : fs ≠ [""])
    (recs : List (List String)) :
    tokRun ⟨.recStart, [], [], recs⟩ (lineChars fs) = ⟨.recStart, [], [], recs ++ [fs]⟩ := by
  obtain ⟨c, cs, hl, h1, h2⟩ := lineChars_head fs hne hnb
  cases fs with
  | nil => exact absurd rfl hne
  | cons f rest =>
      rw [hl, tokRun_cons, tokStep_recStart_eq c h1 h2, ← tokRun_cons, ← hl,
        tokRun_line rest f [] recs]
      simp

/-- Running all serialized lines replays exactly the given records. -/
theorem tokRun_lines (rs : List (List String)) :
    ∀ recs, (∀ r ∈ rs, r ≠ [] ∧ r ≠ [""]) →
      tokRun ⟨.recStart, [], [], recs⟩ (joinAll (rs.map lineChars))
        = ⟨.recStart, [], [], recs ++ rs⟩ := by
  induction rs with
  | nil => intro recs _; simp [joinAll, tokRun_nil]
  | cons r rs ih =>
      intro recs h
      have hr := h r (by simp)
      show tokRun _ (lineChars r ++ joinAll (rs.map lineChars)) = _
      rw [tokRun_append, tokRun_lineTop r hr.1 hr.2 recs,
        ih (recs ++ [r]) (fun x hx => h x (by simp [hx]))]
      simp

/-- Tokenizing the serialized form of records (none empty, none a blank
line) returns exactly those records. -/
theorem tokenize_joinAll (rs : List (List String)) (h : ∀ r ∈ rs, r ≠ [] ∧ r ≠ [""]) :
    tokenize (String.mk (joinAll (rs.map lineChars))) = some rs := by
  unfold tokenize
  rw [data_mk, show tokInit = ⟨TMode.recStart, [], [], []⟩ from rfl, tokRun_lines rs [] h]
  rfl

/-! ## Lemmas: per-column type inference undoes cell serialization -/

theorem all_eq_false_of_mem {α : Type} (l : List α) (p : α → Bool) (x : α)
    (hx : x ∈ l) (hpx : p x = false) : l.all p = false := by
  cases h : l.all p with
  | false => rfl
  | true => rw [List.all_eq_true.1 h x hx] at hpx; cases hpx

theorem cellObjSafe_cases (c : Cell) (h : cellObjSafe c = true) :
    c = Cell.missing ∨ ∃ s, c = Cell.str s ∧ safeStr s = true := by
  cases c with
  | missing => exact Or.inl rfl
  | str s => exact Or.inr ⟨s, rfl, h⟩
  | int n => exact absurd h (by simp [cellObjSafe])
  | float m e => exact absurd h (by simp [cellObjSafe])
  | inf neg => exact absurd h (by simp [cellObjSafe])

theorem safeStr_parts (s : String) (h : safeStr s = true) :
    isNA s = false ∧ isIntLit s = false ∧ (parseFloatLit s).isSome = false := by
  unfold safeStr at h
  simp only [Bool.and_eq_true, Bool.not_eq_true'] at h
  exact ⟨h.1.1.1.1, h.1.1.1.2, h.1.1.2⟩

theorem cellIsInt_cases (c : Cell) (h : cellIsInt c = true) :
    ∃ n, c = Cell.int n ∧ -(2 ^ 63) ≤ n ∧ n < 2 ^ 63 := by
  cases c with
  | int n =>
      have hf : fitsInt64 n = true := h
      rw [fitsInt64, Bool.and_eq_true, decide_eq_true_eq, decide_eq_true_eq] at hf
      exact ⟨n, rfl, hf.1, hf.2⟩
  | str s => exact absurd h (by simp [cellIsInt])
  | missing => exact absurd h (by simp [cellIsInt])
  | float m e => exact absurd h (by simp [cellIsInt])
  | inf neg => exact absurd h (by simp [cellIsInt])

/-- For a well-typed column, inference applied to the serialized raw fields
maps every serialized cell back to itself. -/
theorem applyKind_col (cs : List Cell) (hok : colOk cs = true) (c : Cell) (hc : c ∈ cs) :
    applyKind (inferKind (cs.map cellToRaw)) (cellToRaw c) = c := by
  rw [colOk, Bool.or_eq_true] at hok
  rcases hok with hint | hobj
  · obtain ⟨n, rfl, hlo, hhi⟩ := cellIsInt_cases c (List.all_eq_true.1 hint c hc)
    have hall : (cs.map cellToRaw).all
        (fun s => isIntLit s && fitsInt64 (parseIntLit s)) = true := by
      rw [List.all_eq_true]
      intro x hx
      obtain ⟨c', hc', rfl⟩ := List.mem_map.1 hx
      obtain ⟨n', rfl, hlo', hhi'⟩ := cellIsInt_cases c' (List.all_eq_true.1 hint c' hc')
      show (isIntLit (intRaw n') && fitsInt64 (parseIntLit (intRaw n'))) = true
      rw [isIntLit_intRaw, parseIntLit_intRaw, fitsInt64]
      simp only [Bool.true_and, Bool.and_eq_true, decide_eq_true_eq]
      norm_num at hlo' hhi'
      omega
    have hna : (cs.map cellToRaw).all isNA = false := by
      apply all_eq_false_of_mem _ _ (cellToRaw (Cell.int n)) (List.mem_map_of_mem _ hc)
      exact not_isNA_of_isIntLit _ (isIntLit_intRaw n)
    rw [inferKind, if_neg (by simp [hna]), if_pos hall]
    show Cell.int (parseIntLit (intRaw n)) = Cell.int n
    rw [parseIntLit_intRaw]
  · by_cases hmiss : ∀ x ∈ cs, x = Cell.missing
    · have hna : (cs.map cellToRaw).all isNA = true := by
        rw [List.all_eq_true]
        intro x hx
        obtain ⟨c', hc', rfl⟩ := List.mem_map.1 hx
        rw [hmiss c' hc']
        exact isNA_empty
      rw [inferKind, if_pos hna, hmiss c hc]
      rfl
    · push_neg at hmiss
      obtain ⟨c₀, hc₀, hne₀⟩ := hmiss
      obtain ⟨s₀, rfl, hsafe₀⟩ : ∃ s, c₀ = Cell.str s ∧ safeStr s = true := by
        rcases cellObjSafe_cases c₀ (List.all_eq_true.1 hobj c₀ hc₀) with h | ⟨s, rfl, hs⟩
        · exact absurd h hne₀
        · exact ⟨s, rfl, hs⟩
      obtain ⟨hna₀, hint₀, hfl₀⟩ := safeStr_parts s₀ hsafe₀
      have hmem₀ : s₀ ∈ cs.map cellToRaw := by
        have := List.mem_map_of_mem cellToRaw hc₀
        simpa [cellToRaw] using this
      have h1 : (cs.map cellToRaw).all isNA = false := all_eq_false_of_mem _ _ s₀ hmem₀ hna₀
      have h2 : (cs.map cellToRaw).all
          (fun s => isIntLit s && fitsInt64 (parseIntLit s)) = false :=
        all_eq_false_of_mem _ _ s₀ hmem₀ (by simp [hint₀])
      have h3 : (cs.map cellToRaw).all (fun s => isNA s || (parseFloatLit s).isSome) = false := by
        apply all_eq_false_of_mem _ _ s₀ hmem₀
        simp [hna₀, hfl₀]
      rw [inferKind, if_neg (by simp [h1]), if_neg (by simp [h2]), if_neg (by simp [h3])]
      rcases cellObjSafe_cases c (List.all_eq_true.1 hobj c hc) with rfl | ⟨s, rfl, hs⟩
      · show applyKind ColKind.kobj "" = Cell.missing
        simp [applyKind, isNA_empty]
      · obtain ⟨hna, _, _⟩ := safeStr_parts s hs
        show applyKind ColKind.kobj s = Cell.str s
        simp [applyKind, hna]

/-! ## The CSV round trip -/

/-- C3 (amended): serializing a dataset to CSV text and re-parsing it with
the same CSV rules reproduces it exactly — same row count, same column
names in order, identical cell values — provided the dataset is well-formed
(at least one column, non-empty distinct column names, rectangular rows)
and well-typed for pandas inference: each column either holds only integer
cells within the int64 range, or holds only missing cells and strings no
converter touches (not NA tokens, not integer/float/infinity literals even
with surrounding whitespace, not boolean words or NaN case variants); and
no row serializes to a blank line (a lone all-missing cell in a one-column
dataset).  The `Nodup` hypothesis reflects pandas' header mangling of
duplicate names, which the model does not represent. -/
theorem readCsv_toCsv (d : Dataset)
    (hcols : d.cols ≠ [])
    (hnames : "" ∉ d.cols)
    (hnodup : d.cols.Nodup)
    (hshape : wellShaped d = true)
    (htype : wellTyped d = true)
    (hrows : ∀ r ∈ d.rows, r.map cellToRaw ≠ [""]) :
    readCsv (toCsv d) = Except.ok d := by
  have hn : d.cols.length ≠ 0 := fun h => hcols (List.length_eq_zero.1 h)
  have hreclen : ∀ r ∈ d.rows, r.length = d.cols.length := by
    intro r hr
    have := List.all_eq_true.1 hshape r hr
    exact of_decide_eq_true this
  have hconds : ∀ r ∈ rawRecords d, r ≠ [] ∧ r ≠ [""] := by
    intro r hr
    rcases List.mem_cons.1 hr with rfl | hr2
    · refine ⟨hcols, fun e => hnames ?_⟩
      rw [e]; simp
    · obtain ⟨row, hrow, rfl⟩ := List.mem_map.1 hr2
      refine ⟨fun hmapnil => ?_, hrows row hrow⟩
      have hrownil : row = [] := by simpa using hmapnil
      have := hreclen row hrow
      rw [hrownil] at this
      simp at this
      exact hn this.symm
  have htok : tokenize (toCsv d) = some (rawRecords d) := by
    rw [toCsv]; exact tokenize_joinAll _ hconds
  unfold readCsv
  rw [htok]
  show (if (d.rows.map (fun r => r.map cellToRaw)).any
            (fun r => d.cols.length < r.length) then _ else _) = _
  set body := d.rows.map (fun r => r.map cellToRaw) with hbody
  have hbodylen : ∀ r ∈ body, r.length = d.cols.length := by
    intro r hr
    obtain ⟨row, hrow, rfl⟩ := List.mem_map.1 hr
    simp [hreclen row hrow]
  have hany : body.any (fun r => d.cols.length < r.length) = false := by
    rw [List.any_eq_false]
    intro r hr
    simp [hbodylen r hr]
  rw [if_neg (by simp [hany])]
  have hpad : padRecords d.cols.length body = body := by
    rw [padRecords]
    have : ∀ r ∈ body, r ++ List.replicate (d.cols.length - r.length) "" = r := by
      intro r hr
      simp [hbodylen r hr]
    rw [List.map_congr_left this]
    exact List.map_id' body
  have hcolraw : ∀ j, colRaw body j = (colCells d j).map cellToRaw := by
    intro j
    rw [colRaw, colCells, hbody, List.map_map, List.map_map]
    apply List.map_congr_left
    intro row hrow
    simp only [Function.comp_apply]
    by_cases hj : j < row.length
    · rw [List.getD_eq_getElem _ _ (by simpa using hj), List.getD_eq_getElem _ _ hj,
        List.getElem_map]
    · rw [List.getD_eq_default _ _ (by simpa using hj), List.getD_eq_default _ _ (by omega)]
      rfl
  have hrows_eq : inferRows d.cols body = d.rows := by
    rw [inferRows, hpad]
    have hkinds : colKinds d.cols.length body
        = (List.range d.cols.length).map
            (fun j => inferKind ((colCells d j).map cellToRaw)) := by
      rw [colKinds]
      exact List.map_congr_left (fun j _ => by rw [hcolraw j])
    rw [hkinds, hbody, List.map_map]
    have hrw : ∀ row ∈ d.rows,
        (((row.map cellToRaw).zip ((List.range d.cols.length).map
          (fun j => inferKind ((colCells d j).map cellToRaw)))).map
          (fun p => applyKind p.2 p.1)) = row := by
      intro row hrow
      have hlen : row.length = d.cols.length := hreclen row hrow
      apply List.ext_getElem
      · simp [hlen]
      · intro i h1 h2
        have hi : i < d.cols.length := by rw [← hlen]; exact h2
        rw [List.getElem_map, List.getElem_zip, List.getElem_map, List.getElem_map,
          List.getElem_range]
        apply applyKind_col
        · have := List.all_eq_true.1 htype i (List.mem_range.2 hi)
          exact this
        · rw [colCells]
          have hgd : row.getD i Cell.missing = row[i] := List.getD_eq_getElem _ _ h2
          exact hgd ▸ List.mem_map_of_mem _ hrow
    have : d.rows.map (fun row =>
        (((row.map cellToRaw).zip ((List.range d.cols.length).map
          (fun j => inferKind ((colCells d j).map cellToRaw)))).map
          (fun p => applyKind p.2 p.1))) = d.rows.map (fun row => row) :=
      List.map_congr_left (fun row hrow => hrw row hrow)
    rw [show (fun r : List String => (r.zip ((List.range d.cols.length).map
          (fun j => inferKind ((colCells d j).map cellToRaw)))).map
          (fun p => applyKind p.2 p.1)) ∘ (fun r : List Cell => r.map cellToRaw)
        = fun row : List Cell => ((row.map cellToRaw).zip ((List.range d.cols.length).map
          (fun j => inferKind ((colCells d j).map cellToRaw)))).map
          (fun p => applyKind p.2 p.1) from rfl]
    rw [this]
    exact List.map_id' d.rows
  rw [hrows_eq]

/-! ## Lemmas: the application flow -/

@[simp] theorem requestsOf_nil : requestsOf [] = [] := rfl

@[simp] theorem requestsOf_append (a b : List Event) :
    requestsOf (a ++ b) = requestsOf a ++ requestsOf b := by
  simp [requestsOf]

@[simp] theorem requestsOf_httpPost (r : HttpRequest) (evs : List Event) :
    requestsOf (.httpPost r :: evs) = r :: requestsOf evs := rfl

@[simp] theorem requestsOf_title (s : String) (evs : List Event) :
    requestsOf (.title s :: evs) = requestsOf evs := rfl

@[simp] theorem requestsOf_markdown (s : String) (evs : List Event) :
    requestsOf (.markdown s :: evs) = requestsOf evs := rfl

@[simp] theorem requestsOf_subheader (s : String) (evs : List Event) :
    requestsOf (.subheader s :: evs) = requestsOf evs := rfl

@[simp] theorem requestsOf_errorMsg (s : String) (evs : List Event) :
    requestsOf (.errorMsg s :: evs) = requestsOf evs := rfl

@[simp] theorem requestsOf_warningMsg (s : String) (evs : List Event) :
    requestsOf (.warningMsg s :: evs) = requestsOf evs := rfl

@[simp] theorem requestsOf_infoMsg (s : String) (evs : List Event) :
    requestsOf (.infoMsg s :: evs) = requestsOf evs := rfl

@[simp] theorem requestsOf_writeMsg (s : String) (evs : List Event) :
    requestsOf (.writeMsg s :: evs) = requestsOf evs := rfl

@[simp] theorem requestsOf_jsonDump (r : ApiResponse) (evs : List Event) :
    requestsOf (.jsonDump r :: evs) = requestsOf evs := rfl

@[simp] theorem requestsOf_divider (evs : List Event) :
    requestsOf (.divider :: evs) = requestsOf evs := rfl

@[simp] theorem requestsOf_dataframeShown (evs : List Event) :
    requestsOf (.dataframeShown :: evs) = requestsOf evs := rfl

@[simp] theorem requestsOf_ite (P : Prop) [Decidable P] (a b : List Event) :
    requestsOf (if P then a else b) = if P then requestsOf a else requestsOf b := by
  split <;> rfl

/-- The response-dispatch block never issues an HTTP request. -/
@[simp] theorem requestsOf_handleResponse (r : ApiResponse) :
    requestsOf (handleResponse r) = [] := by
  cases herr : r.error with
  | some msg => simp [handleResponse, herr]
  | none =>
      cases hch : r.choices with
      | none => simp [handleResponse, herr, hch]
      | some l => cases l <;> simp [handleResponse, herr, hch]

/-- The full trace of a run in which the key is present and the dataset file
parses to a non-empty frame. -/
theorem run_loaded (k q text : String) (fs : String → Option String) (d : Dataset)
    (button : Bool) (tp : HttpRequest → TransportResult)
    (hk : k ≠ "") (hfs : fs csvPath = some text)
    (hload : readCsv text = Except.ok d) (hne : d.isEmpty = false) :
    runApp (some k) fs q button tp =
      { events := [Event.title titleMsg, Event.markdown introMsg]
          ++ (if 10000 < (toCsv d).length
              then [Event.warningMsg (sizeWarnMsg (toCsv d).length)] else [])
          ++ (if button then
                (if q = "" then [Event.writeMsg promptMsg]
                 else (sendPromptToMistral tp k q (toCsv d)).1
                   ++ [Event.subheader "Mistral AI Response"]
                   ++ handleResponse (sendPromptToMistral tp k q (toCsv d)).2)
              else [])
          ++ [Event.divider, Event.dataframeShown],
        outcome := RunOutcome.completed } := by
  rw [runApp, if_neg (by simp [keyMissing, hk])]
  rw [show (some k).getD "" = k from rfl, mainRun]
  rw [show load_data fs csvPath = ([], PyResult.ok d) from by
    simp only [load_data, hfs, hload]]
  show (if d.isEmpty then _ else _) = _
  rw [if_neg (by simp [hne])]
  simp only [List.nil_append, List.append_nil]

/-! ## The claims -/

set_option maxRecDepth 100000 in
/-- C3 counterexample: the one-cell dataset whose cell is the string `"1"`
serializes to `"c\n1\n"`, which re-parses to the integer 1: the round trip
is not exact for every dataset. -/
theorem c3_counterexample :
    readCsv (toCsv dStr1) = Except.ok { cols := ["c"], rows := [[Cell.int 1]] }
      ∧ readCsv (toCsv dStr1) ≠ Except.ok dStr1 := by
  exact ⟨by decide, by decide⟩

set_option maxRecDepth 100000 in
/-- C3 witness: the spec's scenario dataset satisfies the well-typedness
hypotheses and round-trips exactly. -/
theorem readCsv_toCsv_witness :
    (dScenario.cols ≠ [] ∧ "" ∉ dScenario.cols ∧ dScenario.cols.Nodup
      ∧ wellShaped dScenario = true ∧ wellTyped dScenario = true
      ∧ (∀ r ∈ dScenario.rows, r.map cellToRaw ≠ [""]))
    ∧ readCsv (toCsv dScenario) = Except.ok dScenario :=
  ⟨⟨by decide, by decide, by decide, by decide, by decide, by decide⟩,
   readCsv_toCsv dScenario (by decide) (by decide) (by decide) (by decide) (by decide)
     (by decide)⟩

/-- C9: when the API key is absent from the environment (after the
environment file is loaded), the run halts at startup showing only the
key-missing error: no screen is rendered and no HTTP request is ever
issued, whatever the file system, question, button state and transport. -/
theorem c9_missing_key_halts (fs : String → Option String) (q : String) (b : Bool)
    (tp : HttpRequest → TransportResult) :
    runApp none fs q b tp
        = { events := [Event.errorMsg apiKeyMissingMsg],
            outcome := RunOutcome.stoppedAtStartup }
      ∧ requestsOf (runApp none fs q b tp).events = [] :=
  ⟨rfl, rfl⟩

set_option maxRecDepth 100000 in
/-- C1 counterexample: at a concrete run exactly one request is issued, but
it is not the request the claim describes — its user message is not the
serialized dataset followed by the question text; indeed the message does
not even start with the dataset text. -/
theorem c1_counterexample :
    requestsOf (runApp (some "k") (fsWith "a\n1\n") "Q" true (tpFail "boom")).events
        ≠ [claimRequest "k" "Q" "a\n1\n"]
      ∧ (requestsOf
          (runApp (some "k") (fsWith "a\n1\n") "Q" true (tpFail "boom")).events).length = 1
      ∧ (requestsOf (runApp (some "k") (fsWith "a\n1\n") "Q" true (tpFail "boom")).events).map
            (fun r => startsWithChars
              ((r.payload.messages.getD 1 { role := "", content := "" }).content).data
              "a\n1\n".data)
          = [false] := by
  exact ⟨by decide, by decide, by decide⟩

/-- C1 (amended): for every loaded non-empty dataset and non-empty
question, the flow issues exactly one HTTP POST to the chat-completion
endpoint with a bearer-token header built from the key, body model
`"mistral-large-latest"`, exactly the system message (the fixed HR-analyst
instruction) then the user message — the serialized dataset followed by
the question text, embedded in the fixed framing template — temperature
0.1 and max_tokens 10000. -/
theorem c1_request_shape (k text q : String) (fs : String → Option String)
    (tp : HttpRequest → TransportResult) (d : Dataset)
    (hk : k ≠ "") (hfs : fs csvPath = some text)
    (hload : readCsv text = Except.ok d) (hne : d.isEmpty = false) (hq : q ≠ "") :
    requestsOf (runApp (some k) fs q true tp).events =
      [{ url := "https://api.mistral.ai/v1/chat/completions",
         authHeader := "Bearer " ++ k,
         contentTypeHeader := "application/json",
         payload := { model := "mistral-large-latest",
                      messages := [{ role := "system", content := systemInstruction },
                                   { role := "user",
                                     content := "Here is the HR dataset:\n\n" ++ toCsv d
                                       ++ "\n\nBased on this data, please answer the following question:\n\n"
                                       ++ q }],
                      temperature := (1, 1),
                      max_tokens := 10000 } }] := by
  rw [run_loaded k q text fs d true tp hk hfs hload hne]
  cases htp : tp (buildRequest k q (toCsv d)) with
  | success body =>
      have hsend : sendPromptToMistral tp k q (toCsv d)
          = ([Event.httpPost (buildRequest k q (toCsv d))], body) := by
        simp only [sendPromptToMistral, htp]
      simp only [hsend, if_pos rfl, if_neg hq]
      simp [buildRequest, userContent, mistralUrl]
  | exc e =>
      have hsend : sendPromptToMistral tp k q (toCsv d)
          = ([Event.httpPost (buildRequest k q (toCsv d)),
              Event.errorMsg ("API Request Error: " ++ e)],
             { error := some e, choices := none }) := by
        simp only [sendPromptToMistral, htp]
      simp only [hsend, if_pos rfl, if_neg hq]
      simp [buildRequest, userContent, mistralUrl]

set_option maxRecDepth 100000 in
/-- C1 witness: a concrete loaded run issuing its one request. -/
theorem c1_request_shape_witness :
    (("k" : String) ≠ "" ∧ fsWith "a\n1\n" csvPath = some "a\n1\n"
      ∧ readCsv "a\n1\n" = Except.ok dOneCol ∧ dOneCol.isEmpty = false
      ∧ ("Q" : String) ≠ "")
    ∧ requestsOf (runApp (some "k") (fsWith "a\n1\n") "Q" true (tpFail "boom")).events =
        [{ url := "https://api.mistral.ai/v1/chat/completions",
           authHeader := "Bearer " ++ "k",
           contentTypeHeader := "application/json",
           payload := { model := "mistral-large-latest",
                        messages := [{ role := "system", content := systemInstruction },
                                     { role := "user",
                                       content := "Here is the HR dataset:\n\n" ++ toCsv dOneCol
                                         ++ "\n\nBased on this data, please answer the following question:\n\n"
                                         ++ "Q" }],
                        temperature := (1, 1),
                        max_tokens := 10000 } }] :=
  ⟨⟨by decide, by decide, by decide, by decide, by decide⟩,
   c1_request_shape "k" "a\n1\n" "Q" (fsWith "a\n1\n") (tpFail "boom") dOneCol
     (by decide) (by decide) (by decide) (by decide) (by decide)⟩

/-- C4: on transport-level failure of the single HTTP call (network error,
or the exception raised for a non-2xx status), the run completes without
crashing, exactly one request was issued (no retry), the transport message
is surfaced, and nothing is ever written as an answer — the failed
response's `choices` are never dereferenced. -/
theorem c4_transport_failure (k text q emsg : String) (fs : String → Option String)
    (d : Dataset) (tp : HttpRequest → TransportResult)
    (hk : k ≠ "") (hfs : fs csvPath = some text)
    (hload : readCsv text = Except.ok d) (hne : d.isEmpty = false) (hq : q ≠ "")
    (htp : tp (buildRequest k q (toCsv d)) = TransportResult.exc emsg) :
    (runApp (some k) fs q true tp).outcome = RunOutcome.completed
      ∧ requestsOf (runApp (some k) fs q true tp).events = [buildRequest k q (toCsv d)]
      ∧ Event.errorMsg ("API Request Error: " ++ emsg) ∈ (runApp (some k) fs q true tp).events
      ∧ ∀ s, Event.writeMsg s ∉ (runApp (some k) fs q true tp).events := by
  rw [run_loaded k q text fs d true tp hk hfs hload hne]
  have hsend : sendPromptToMistral tp k q (toCsv d)
      = ([Event.httpPost (buildRequest k q (toCsv d)),
          Event.errorMsg ("API Request Error: " ++ emsg)],
         { error := some emsg, choices := none }) := by
    simp only [sendPromptToMistral, htp]
  simp only [hsend, if_pos rfl, if_neg hq]
  refine ⟨by trivial, by simp, ?_, ?_⟩
  · by_cases h1 : 10000 < (toCsv d).length <;> simp [handleResponse, h1]
  · intro s
    by_cases h1 : 10000 < (toCsv d).length <;>
      by_cases h2 : containsSubstr emsg ctxToken = true <;>
        simp [handleResponse, h1, h2]

set_option maxRecDepth 100000 in
/-- C4 witness: a concrete failing transport. -/
theorem c4_transport_failure_witness :
    (("k" : String) ≠ "" ∧ fsWith "a\n1\n" csvPath = some "a\n1\n"
      ∧ readCsv "a\n1\n" = Except.ok dOneCol ∧ dOneCol.isEmpty = false
      ∧ ("Q" : String) ≠ ""
      ∧ tpFail "boom" (buildRequest "k" "Q" (toCsv dOneCol)) = TransportResult.exc "boom")
    ∧ (runApp (some "k") (fsWith "a\n1\n") "Q" true (tpFail "boom")).outcome
        = RunOutcome.completed
    ∧ requestsOf (runApp (some "k") (fsWith "a\n1\n") "Q" true (tpFail "boom")).events
        = [buildRequest "k" "Q" (toCsv dOneCol)]
    ∧ Event.errorMsg ("API Request Error: " ++ "boom")
        ∈ (runApp (some "k") (fsWith "a\n1\n") "Q" true (tpFail "boom")).events := by
  have h := c4_transport_failure "k" "a\n1\n" "Q" "boom" (fsWith "a\n1\n") dOneCol
    (tpFail "boom") (by decide) (by decide) (by decide) (by decide) (by decide) rfl
  exact ⟨⟨by decide, by decide, by decide, by decide, by decide, rfl⟩, h.1, h.2.1, h.2.2.1⟩

set_option maxRecDepth 100000 in
/-- C5 counterexample: a 200 body carrying a non-empty `choices` array and
also an `error` key does not get its first choice displayed — the error
branch wins — refuting the claim for such bodies. -/
theorem c5_counterexample :
    Event.writeMsg "42" ∉ (runApp (some "k") (fsWith "a\n1\n") "Q" true (tpOk bodyBoth)).events
      ∧ Event.errorMsg ("Error from API: " ++ "boom")
          ∈ (runApp (some "k") (fsWith "a\n1\n") "Q" true (tpOk bodyBoth)).events :=
  ⟨by decide, by decide⟩

/-- C5 (amended): for every 2xx response whose body has a non-empty
`choices` array and no `error` key, the flow displays exactly the first
choice's message content (and nothing else after the response subheader),
completing normally. -/
theorem c5_first_choice (k text q : String) (fs : String → Option String)
    (d : Dataset) (tp : HttpRequest → TransportResult) (body : ApiResponse)
    (c : RespChoice) (rest : List RespChoice)
    (hk : k ≠ "") (hfs : fs csvPath = some text)
    (hload : readCsv text = Except.ok d) (hne : d.isEmpty = false) (hq : q ≠ "")
    (htp : tp (buildRequest k q (toCsv d)) = TransportResult.success body)
    (herr : body.error = none) (hch : body.choices = some (c :: rest)) :
    (runApp (some k) fs q true tp).events
        = [Event.title titleMsg, Event.markdown introMsg]
          ++ (if 10000 < (toCsv d).length
              then [Event.warningMsg (sizeWarnMsg (toCsv d).length)] else [])
          ++ [Event.httpPost (buildRequest k q (toCsv d)),
              Event.subheader "Mistral AI Response",
              Event.writeMsg c.message.content,
              Event.divider, Event.dataframeShown]
      ∧ (runApp (some k) fs q true tp).outcome = RunOutcome.completed := by
  rw [run_loaded k q text fs d true tp hk hfs hload hne]
  have hsend : sendPromptToMistral tp k q (toCsv d)
      = ([Event.httpPost (buildRequest k q (toCsv d))], body) := by
    simp only [sendPromptToMistral, htp]
  simp only [hsend, if_pos rfl, if_neg hq]
  refine ⟨?_, by trivial⟩
  have hhr : handleResponse body = [Event.writeMsg c.message.content] := by
    simp [handleResponse, herr, hch]
  rw [hhr]
  simp

set_option maxRecDepth 100000 in
/-- C5 witness: a 200 body with choices `[{message: {content: "42"}}]`
yields the displayed answer `"42"`. -/
theorem c5_first_choice_witness :
    (("k" : String) ≠ "" ∧ fsWith "a\n1\n" csvPath = some "a\n1\n"
      ∧ readCsv "a\n1\n" = Except.ok dOneCol ∧ dOneCol.isEmpty = false
      ∧ ("Q" : String) ≠ ""
      ∧ tpOk bodyOk (buildRequest "k" "Q" (toCsv dOneCol)) = TransportResult.success bodyOk
      ∧ bodyOk.error = none
      ∧ bodyOk.choices = some [{ message := { role := "assistant", content := "42" } }])
    ∧ (runApp (some "k") (fsWith "a\n1\n") "Q" true (tpOk bodyOk)).events
        = [Event.title titleMsg, Event.markdown introMsg]
          ++ (if 10000 < (toCsv dOneCol).length
              then [Event.warningMsg (sizeWarnMsg (toCsv dOneCol).length)] else [])
          ++ [Event.httpPost (buildRequest "k" "Q" (toCsv dOneCol)),
              Event.subheader "Mistral AI Response",
              Event.writeMsg "42",
              Event.divider, Event.dataframeShown] := by
  have h := c5_first_choice "k" "a\n1\n" "Q" (fsWith "a\n1\n") dOneCol (tpOk bodyOk) bodyOk
    { message := { role := "assistant", content := "42" } } []
    (by decide) (by decide) (by decide) (by decide) (by decide) rfl rfl rfl
  exact ⟨⟨by decide, by decide, by decide, by decide, by decide, rfl, rfl, rfl⟩, h.1⟩

/-- C6: for every 2xx response that is well-formed but has no choices
(absent or empty array) and no error field, the flow writes the
no-valid-response message (with a JSON dump of the body), writes nothing
else, and completes without crashing. -/
theorem c6_no_choices (k text q : String) (fs : String → Option String)
    (d : Dataset) (tp : HttpRequest → TransportResult) (body : ApiResponse)
    (hk : k ≠ "") (hfs : fs csvPath = some text)
    (hload : readCsv text = Except.ok d) (hne : d.isEmpty = false) (hq : q ≠ "")
    (htp : tp (buildRequest k q (toCsv d)) = TransportResult.success body)
    (herr : body.error = none)
    (hch : body.choices = none ∨ body.choices = some []) :
    Event.writeMsg noValidMsg ∈ (runApp (some k) fs q true tp).events
      ∧ Event.jsonDump body ∈ (runApp (some k) fs q true tp).events
      ∧ (∀ s, Event.writeMsg s ∈ (runApp (some k) fs q true tp).events → s = noValidMsg)
      ∧ (runApp (some k) fs q true tp).outcome = RunOutcome.completed := by
  rw [run_loaded k q text fs d true tp hk hfs hload hne]
  have hsend : sendPromptToMistral tp k q (toCsv d)
      = ([Event.httpPost (buildRequest k q (toCsv d))], body) := by
    simp only [sendPromptToMistral, htp]
  have hhr : handleResponse body = [Event.writeMsg noValidMsg, Event.jsonDump body] := by
    rcases hch with h | h <;> simp [handleResponse, herr, h]
  simp only [hsend, if_pos rfl, if_neg hq, hhr]
  refine ⟨?_, ?_, ?_, by trivial⟩
  · by_cases h1 : 10000 < (toCsv d).length <;> simp [h1]
  · by_cases h1 : 10000 < (toCsv d).length <;> simp [h1]
  · intro s hs
    by_cases h1 : 10000 < (toCsv d).length <;> simp [h1] at hs <;> exact hs

set_option maxRecDepth 100000 in
/-- C6 witness: a 200 body with neither `error` nor `choices`. -/
theorem c6_no_choices_witness :
    (("k" : String) ≠ "" ∧ fsWith "a\n1\n" csvPath = some "a\n1\n"
      ∧ readCsv "a\n1\n" = Except.ok dOneCol ∧ dOneCol.isEmpty = false
      ∧ ("Q" : String) ≠ ""
      ∧ tpOk bodyEmpty (buildRequest "k" "Q" (toCsv dOneCol)) = TransportResult.success bodyEmpty
      ∧ bodyEmpty.error = none ∧ bodyEmpty.choices = none)
    ∧ Event.writeMsg noValidMsg
        ∈ (runApp (some "k") (fsWith "a\n1\n") "Q" true (tpOk bodyEmpty)).events
    ∧ Event.jsonDump bodyEmpty
        ∈ (runApp (some "k") (fsWith "a\n1\n") "Q" true (tpOk bodyEmpty)).events := by
  have h := c6_no_choices "k" "a\n1\n" "Q" (fsWith "a\n1\n") dOneCol (tpOk bodyEmpty) bodyEmpty
    (by decide) (by decide) (by decide) (by decide) (by decide) rfl rfl (Or.inl rfl)
  exact ⟨⟨by decide, by decide, by decide, by decide, by decide, rfl, rfl, rfl⟩, h.1, h.2.1⟩

/-- C7: submitting an empty question is a no-op: the flow writes the
enter-a-question prompt, issues zero HTTP calls, shows no error, and
completes normally. -/
theorem c7_empty_question (k text : String) (fs : String → Option String)
    (d : Dataset) (tp : HttpRequest → TransportResult)
    (hk : k ≠ "") (hfs : fs csvPath = some text)
    (hload : readCsv text = Except.ok d) (hne : d.isEmpty = false) :
    requestsOf (runApp (some k) fs "" true tp).events = []
      ∧ Event.writeMsg promptMsg ∈ (runApp (some k) fs "" true tp).events
      ∧ (∀ s, Event.errorMsg s ∉ (runApp (some k) fs "" true tp).events)
      ∧ (runApp (some k) fs "" true tp).outcome = RunOutcome.completed := by
  rw [run_loaded k "" text fs d true tp hk hfs hload hne]
  simp only [if_pos rfl]
  refine ⟨?_, ?_, ?_, by trivial⟩
  · by_cases h1 : 10000 < (toCsv d).length <;> simp [h1]
  · by_cases h1 : 10000 < (toCsv d).length <;> simp [h1]
  · intro s
    by_cases h1 : 10000 < (toCsv d).length <;> simp [h1]

set_option maxRecDepth 100000 in
/-- C7 witness: a concrete run with the empty question. -/
theorem c7_empty_question_witness :
    (("k" : String) ≠ "" ∧ fsWith "a\n1\n" csvPath = some "a\n1\n"
      ∧ readCsv "a\n1\n" = Except.ok dOneCol ∧ dOneCol.isEmpty = false)
    ∧ requestsOf (runApp (some "k") (fsWith "a\n1\n") "" true (tpFail "boom")).events = []
    ∧ Event.writeMsg promptMsg
        ∈ (runApp (some "k") (fsWith "a\n1\n") "" true (tpFail "boom")).events := by
  have h := c7_empty_question "k" "a\n1\n" (fsWith "a\n1\n") dOneCol (tpFail "boom")
    (by decide) (by decide) (by decide) (by decide)
  exact ⟨⟨by decide, by decide, by decide, by decide⟩, h.1, h.2.1⟩

/-- C8: whenever the Q&A call's resulting error message textually contains
the input-length token `"context_length_exceeded"`, the flow shows the
error message itself and additionally the chunking/RAG hint. -/
theorem c8_context_hint (k text q msg : String) (fs : String → Option String)
    (d : Dataset) (tp : HttpRequest → TransportResult)
    (hk : k ≠ "") (hfs : fs csvPath = some text)
    (hload : readCsv text = Except.ok d) (hne : d.isEmpty = false) (hq : q ≠ "")
    (hr : (sendPromptToMistral tp k q (toCsv d)).2.error = some msg)
    (htok : containsSubstr msg ctxToken = true) :
    Event.errorMsg ("Error from API: " ++ msg) ∈ (runApp (some k) fs q true tp).events
      ∧ Event.infoMsg ctxHint ∈ (runApp (some k) fs q true tp).events := by
  rw [run_loaded k q text fs d true tp hk hfs hload hne]
  have hhr : handleResponse (sendPromptToMistral tp k q (toCsv d)).2
      = [Event.errorMsg ("Error from API: " ++ msg), Event.infoMsg ctxHint] := by
    simp [handleResponse, hr, htok]
  simp only [if_pos rfl, if_neg hq, hhr]
  constructor <;> (by_cases h1 : 10000 < (toCsv d).length <;> simp [h1])

set_option maxRecDepth 100000 in
/-- C8 witness: a transport failure whose message contains the token. -/
theorem c8_context_hint_witness :
    (("k" : String) ≠ "" ∧ fsWith "a\n1\n" csvPath = some "a\n1\n"
      ∧ readCsv "a\n1\n" = Except.ok dOneCol ∧ dOneCol.isEmpty = false
      ∧ ("Q" : String) ≠ ""
      ∧ (sendPromptToMistral (tpFail "request failed: context_length_exceeded") "k" "Q"
          (toCsv dOneCol)).2.error = some "request failed: context_length_exceeded"
      ∧ containsSubstr "request failed: context_length_exceeded" ctxToken = true)
    ∧ Event.infoMsg ctxHint
        ∈ (runApp (some "k") (fsWith "a\n1\n") "Q" true
            (tpFail "request failed: context_length_exceeded")).events := by
  have h := c8_context_hint "k" "a\n1\n" "Q" "request failed: context_length_exceeded"
    (fsWith "a\n1\n") dOneCol (tpFail "request failed: context_length_exceeded")
    (by decide) (by decide) (by decide) (by decide) (by decide) rfl (by decide)
  exact ⟨⟨by decide, by decide, by decide, by decide, by decide, rfl, by decide⟩, h.2⟩

/-- C10: for every response dictionary that contains an `error` key, the
dispatch takes the error branch — its output is determined by the error
message alone, even when a non-empty `choices` array is also present; the
`choices` field is never consulted. -/
theorem c10_error_precedence (r : ApiResponse) (msg : String) (cs : List RespChoice)
    (hmsg : r.error = some msg) (hch : r.choices = some cs) :
    handleResponse r
      = Event.errorMsg ("Error from API: " ++ msg)
        :: (if containsSubstr msg ctxToken then [Event.infoMsg ctxHint] else []) := by
  simp [handleResponse, hmsg]

/-- C10 witness: a body with both `error` and non-empty `choices` renders
only the error. -/
theorem c10_error_precedence_witness :
    (bodyBoth.error = some "boom"
      ∧ bodyBoth.choices = some [{ message := { role := "assistant", content := "42" } }])
    ∧ handleResponse bodyBoth
        = Event.errorMsg ("Error from API: " ++ "boom")
          :: (if containsSubstr "boom" ctxToken then [Event.infoMsg ctxHint] else []) :=
  ⟨⟨rfl, rfl⟩, c10_error_precedence bodyBoth "boom" _ rfl rfl⟩

end App
